import Mathlib

/-!
# Verification of the timesheet parsing and reconciliation engine

Shallow embedding of `src/timesheet_parser.py`: the compact-date and
decimal-hour arithmetic (`parse_date`, `float_time_to_hm`,
`build_iso_datetime`), the time-range line matcher (`parse_time_range`),
the paginated task fetch (`get_project_tasks`) and the line-by-line
reconciliation driver (`process_timesheet_file`).

Modelling conventions:
* Python strings are modelled as `List Char` (`PyStr`), so that every
  operation is structurally recursive and kernel-evaluable; a document
  is a `List PyStr` of physical lines without their trailing newline
  (Python iterates the file line by line and immediately strips the
  newline with the `rstrip` call);
* Python exceptions that the driver does not catch are modelled with
  `Except PyError` at the line level and an `Option PyError` component
  in the driver result (the uncaught exception that aborted the run);
* remote I/O is modelled by explicit parameters: the snapshot of the
  project directory (`project_map`), the remote task list per project
  id (`fetch`), and for the paginated fetch the stream of page
  responses; the driver returns the list of gateway calls it performs
  (`Action`).
-/

namespace Timesheet

/-- A Python string value. -/
abbrev PyStr := List Char

/-! ## Python string primitives -/

/-- Decidable equality on `Except`, used to evaluate parser results on
concrete inputs. -/
instance {ε α : Type} [DecidableEq ε] [DecidableEq α] :
    DecidableEq (Except ε α) := fun x y =>
  match x, y with
  | .ok a, .ok b =>
    if h : a = b then .isTrue (by rw [h]) else .isFalse (by simp [h])
  | .error e, .error f =>
    if h : e = f then .isTrue (by rw [h]) else .isFalse (by simp [h])
  | .ok _, .error _ => .isFalse (by simp)
  | .error _, .ok _ => .isFalse (by simp)

/-- ASCII decimal digit test, the class `\d` of the time-range pattern
and the digit test of `int` (the documents are ASCII). -/
def isDigitChar (c : Char) : Bool :=
  48 ≤ c.toNat && c.toNat ≤ 57

/-- Python `str.strip()`: drop leading and trailing whitespace. -/
def pyStrip (s : PyStr) : PyStr :=
  ((s.dropWhile Char.isWhitespace).reverse.dropWhile Char.isWhitespace).reverse

/-- Python `str.lower()` (the documents are ASCII, where Python's and
Lean's per-character lowering agree). -/
def pyLower (s : PyStr) : PyStr :=
  s.map Char.toLower

/-- Worker for `pySplit`: `acc` holds the current token reversed. -/
def pySplitAux : PyStr → PyStr → List PyStr
  | acc, [] => if acc = [] then [] else [acc.reverse]
  | acc, c :: cs =>
    if c.isWhitespace then
      if acc = [] then pySplitAux [] cs else acc.reverse :: pySplitAux [] cs
    else pySplitAux (c :: acc) cs

/-- Python `str.split()` with no separator: split on whitespace runs,
dropping empty pieces. -/
def pySplit (s : PyStr) : List PyStr :=
  pySplitAux [] s

/-- Numeric value of a list of decimal digit characters (most
significant first), as computed by Python `int` on a digit-only
string. -/
def decVal (cs : List Char) : Nat :=
  cs.foldl (fun a c => a * 10 + (c.toNat - 48)) 0

/-- Python `int(s)` restricted to non-empty all-digit strings, the only
shape the date parser feeds it (signs, underscores and surrounding
whitespace never occur in the digit slices of a whitespace-split
token); any other content raises `ValueError`, modelled as `none`. -/
def decDigits? (cs : List Char) : Option Nat :=
  if cs ≠ [] ∧ cs.all isDigitChar then some (decVal cs) else none

/-- Number of leading space characters of a line:
`len(line) - len(line.lstrip(" "))`. -/
def indentOf (line : PyStr) : Nat :=
  (line.takeWhile (fun c => c = ' ')).length

/-- `needle` starts `haystack` (character-wise). -/
def startsWithList : List Char → List Char → Bool
  | [], _ => true
  | _ :: _, [] => false
  | x :: xs, y :: ys => x == y && startsWithList xs ys

/-- Python substring containment `needle in haystack`. -/
def containsList (needle : List Char) : List Char → Bool
  | [] => startsWithList needle []
  | y :: ys => startsWithList needle (y :: ys) || containsList needle ys

/-- Case-insensitive substring test: Python `a.lower() in b.lower()`. -/
def substrCI (a b : PyStr) : Bool :=
  containsList (pyLower a) (pyLower b)

/-! ## Errors -/

/-- The single kind of exception the embedded code raises: Python
`ValueError`, thrown by `parse_date` (directly or through `int` /
`datetime`) and by `datetime` range validation in `build_iso_datetime`.
The human-readable message is elided. -/
inductive PyError where
  | valueError : PyError
deriving DecidableEq, Repr

/-! ## Time arithmetic -/

/-- A calendar date, the result of `datetime(...).date()`. -/
structure Date where
  year : Nat
  month : Nat
  day : Nat
deriving DecidableEq, Repr

/-- Proleptic-Gregorian leap year, as used by Python `datetime`. -/
def isLeap (y : Nat) : Bool :=
  y % 4 = 0 && (y % 100 ≠ 0 || y % 400 = 0)

/-- Length of month `m` of year `y` per Python `datetime`. -/
def daysInMonth (y m : Nat) : Nat :=
  if m = 2 then (if isLeap y then 29 else 28)
  else if m = 4 ∨ m = 6 ∨ m = 9 ∨ m = 11 then 30
  else 31

/-- The `datetime(year, month, day)` constructor: validates
`MINYEAR ≤ year ≤ MAXYEAR`, `1 ≤ month ≤ 12`, `1 ≤ day ≤ daysInMonth`,
raising `ValueError` otherwise. -/
def mkDate (y m d : Nat) : Except PyError Date :=
  if 1 ≤ y ∧ y ≤ 9999 ∧ 1 ≤ m ∧ m ≤ 12 ∧ 1 ≤ d ∧ d ≤ daysInMonth y m then
    .ok ⟨y, m, d⟩
  else .error .valueError

/-- `parse_date`: a 6-character token is sliced as `ddmmyy` with year
string `"20" + yy`; an 8-character token as `ddmmyyyy`; any other
length raises `ValueError`.  The slices go through `int` and the
`datetime` constructor (`mkDate`), which can also raise. -/
def parse_date (ds : PyStr) : Except PyError Date :=
  if ds.length = 6 then
    match decDigits? ('2' :: '0' :: ds.drop 4),
          decDigits? ((ds.drop 2).take 2), decDigits? (ds.take 2) with
    | some y, some m, some d => mkDate y m d
    | _, _, _ => .error .valueError
  else if ds.length = 8 then
    match decDigits? (ds.drop 4),
          decDigits? ((ds.drop 2).take 2), decDigits? (ds.take 2) with
    | some y, some m, some d => mkDate y m d
    | _, _, _ => .error .valueError
  else .error .valueError

/-! ## Time-range line matching

The source matches `line.strip()` against the anchored pattern
`^\s*(\d{1,2}\.\d{1,2})\s*-\s*(\d{1,2}\.\d{1,2})\s+(.*)$`.
The matcher below reproduces the regex engine's behaviour, including
the greedy-then-backtrack order of the `\d{1,2}` groups (two digits are
preferred, one digit is retried on failure); the `\s*` and `\s+` runs
are deterministic because whitespace is disjoint from the characters
that follow them. -/

/-- Alternatives for one `\d{1,2}` group, in greedy order: the pairs
(matched digits, remaining input), longest first. -/
def grabDigits12 : List Char → List (List Char × List Char)
  | c1 :: c2 :: rest =>
    if isDigitChar c1 then
      if isDigitChar c2 then [([c1, c2], rest), ([c1], c2 :: rest)]
      else [([c1], c2 :: rest)]
    else []
  | [c1] => if isDigitChar c1 then [([c1], [])] else []
  | [] => []

/-- Alternatives for one `\d{1,2}\.\d{1,2}` group, in the regex
engine's backtracking order. -/
def grabNum (cs : List Char) : List (List Char × List Char) :=
  (grabDigits12 cs).flatMap fun ir =>
    match ir.2 with
    | '.' :: r2 =>
      (grabDigits12 r2).map fun fr => (ir.1 ++ '.' :: fr.1, fr.2)
    | _ => []

/-- `parse_time_range`: returns `(start token, end token, description)`
for a line matching the pattern, `none` otherwise (the Python version
returns the tuple `(None, None, None)`). -/
def parse_time_range (line : PyStr) : Option (PyStr × PyStr × PyStr) :=
  let cs := (pyStrip line).dropWhile Char.isWhitespace
  (grabNum cs).findSome? fun g1 =>
    match g1.2.dropWhile Char.isWhitespace with
    | '-' :: r2 =>
      (grabNum (r2.dropWhile Char.isWhitespace)).findSome? fun g2 =>
        match g2.2 with
        | c :: rest =>
          if c.isWhitespace then
            some (g1.1, g2.1, rest.dropWhile Char.isWhitespace)
          else none
        | [] => none
    | _ => none

/-! ## Decimal hours

`float_time_to_hm` computes `val = float(token)` and returns
`(int(val), int(round((val - int(val)) * 60)))`.  On the token domain
`\d{1,2}\.\d{1,2}` admitted by `parse_time_range`, the token has the
exact value `I + F / 10 ^ k` with `I` the integer digits, `F` the
fraction digits and `k` their count, so `int(val) = I` and
`(val - int(val)) * 60 = 60 * F / 10 ^ k` exactly; the embedding below
computes with these exact integers.  (In CPython the computation runs
on IEEE-754 doubles, but every accumulated double rounding error on
this domain is below `2 ^ (-40)` while every truncation and
round-to-nearest decision has margin at least `1 / 100` — exact
half-way ties never arise because `60 * F / 10 ^ k` is a multiple of
`1 / 5` — so the double computation and the exact computation agree on
the whole domain.)  Both results are non-negative, hence `Nat`. -/

/-- Python `round(p / q)` for non-negative operands: round half to
even. -/
def pyRoundNat (num den : Nat) : Nat :=
  let q := num / den
  let r := num % den
  if 2 * r < den then q
  else if den < 2 * r then q + 1
  else if q % 2 = 0 then q else q + 1

/-- `float_time_to_hm`: hour is `int(val)`, minute is
`round((val - int(val)) * 60)`, computed exactly as explained above. -/
def float_time_to_hm (s : PyStr) : Nat × Nat :=
  let intPart := s.takeWhile (fun c => c ≠ '.')
  let fracPart := (s.dropWhile (fun c => c ≠ '.')).drop 1
  (decVal intPart, pyRoundNat (60 * decVal fracPart) (10 ^ fracPart.length))

/-- The exact rational value of a decimal token `digits.digits` — the
real number `val = float(token)` denotes.  This is the claim-side
description `float_time_to_hm` is proved against. -/
def pyFloatTok (s : PyStr) : ℚ :=
  let intPart := s.takeWhile (fun c => c ≠ '.')
  let fracPart := (s.dropWhile (fun c => c ≠ '.')).drop 1
  (decVal intPart : ℚ) + (decVal fracPart : ℚ) / (10 ^ fracPart.length)

/-- Python `round` on a rational, to an integer: round half to even.
Claim-side counterpart of `pyRoundNat`. -/
def pyRound (q : ℚ) : Int :=
  if q - ⌊q⌋ < 1 / 2 then ⌊q⌋
  else if 1 / 2 < q - ⌊q⌋ then ⌊q⌋ + 1
  else if ⌊q⌋ % 2 = 0 then ⌊q⌋ else ⌊q⌋ + 1

/-- A timestamp with second component zero, the content of the
formatted string `datetime(y, mo, d, h, mi).strftime(...)` produced by
`build_iso_datetime` (the textual rendering, injective in the fields,
is elided). -/
structure Instant where
  year : Nat
  month : Nat
  day : Nat
  hour : Nat
  minute : Nat
deriving DecidableEq, Repr

/-- `build_iso_datetime`: the `datetime` constructor validates
`0 ≤ hour ≤ 23` and `0 ≤ minute ≤ 59`, raising `ValueError` otherwise
(the date fields were already validated by `parse_date`, and the hour
and minute arguments are non-negative by construction). -/
def build_iso_datetime (d : Date) (h m : Nat) : Except PyError Instant :=
  if h < 24 ∧ m < 60 then .ok ⟨d.year, d.month, d.day, h, m⟩
  else .error .valueError

/-! ## Remote task records and gateway actions -/

/-- A remote task record as decoded from the gateway: the fields the
core reads are `id`, `name` and `project_id`. -/
structure TaskRec where
  id : Nat
  name : PyStr
  project_id : Nat
deriving DecidableEq, Repr

/-- A remote call the driver can perform.  `createTask` corresponds to
`post_create_task` (the module's task-creation operation),
`createEvent` to `post_create_event`, `fetchTasks` to the
`get_project_tasks` read. -/
inductive Action where
  | fetchTasks : Nat → Action
  | createTask : PyStr → Nat → Action
  | createEvent : Instant → Instant → Nat → PyStr → Action
deriving DecidableEq, Repr

def isCreateTask : Action → Bool
  | .createTask _ _ => true
  | _ => false

def isCreateEvent : Action → Bool
  | .createEvent _ _ _ _ => true
  | _ => false

def isFetch (pid : Nat) : Action → Bool
  | .fetchTasks p => p == pid
  | _ => false

/-! ## The reconciliation driver -/

/-- The driver's mutable locals: `current_date`, `in_block`,
`current_project`, `current_task` and the `project_tasks_cache`
dictionary (an insertion-ordered association list keyed by project
id). -/
structure PState where
  current_date : Option Date
  in_block : Bool
  current_project : Option PyStr
  current_task : Option PyStr
  project_tasks_cache : List (Nat × List TaskRec)
deriving DecidableEq, Repr

/-- Python dict `.get` on the project directory
(`project_map.get(key)`). -/
def dictGet (m : List (PyStr × Nat)) (k : PyStr) : Option Nat :=
  (m.find? (fun kv => kv.1 == k)).map (fun kv => kv.2)

/-- Python dict `.get` / key membership on the per-run
`project_tasks_cache`. -/
def cacheGet (c : List (Nat × List TaskRec)) (k : Nat) :
    Option (List TaskRec) :=
  (c.find? (fun kv => kv.1 == k)).map (fun kv => kv.2)

/-- One candidate test of the task-matching loop: the three-way
case-insensitive substring check of the source, in its evaluation
order — current task text inside the candidate name, or candidate name
inside the current task text, or the description inside the candidate
name. -/
def clauseMatch (current_task desc : PyStr) (t : TaskRec) : Bool :=
  substrCI current_task t.name || substrCI t.name current_task ||
    substrCI desc t.name

/-- The task-matching loop of `process_timesheet_file`: walk the cached
remote task list in order and return the `id` of the first record
satisfying `clauseMatch`, breaking out of the loop there. -/
def matchTask (current_task desc : PyStr) : List TaskRec → Option Nat
  | [] => none
  | t :: ts =>
    if clauseMatch current_task desc t then some t.id
    else matchTask current_task desc ts

/-- The apostrophe character, as used by the notes format string. -/
def apos : Char := Char.ofNat 39

/-- The time-entry branch of the driver (indentation level 3, reached
with `current_project` and `current_task` truthy and the in-block/date
gate satisfied): parse the time range, convert both endpoints, resolve
the project id, match a cached remote task and create the event.  Every
unresolvable step skips the entry (`continue`); an out-of-range hour
raises through the `datetime` constructor.  Python truthiness makes a
project or task id of 0 behave like an unresolved one. -/
def handleTimeLine (project_map : List (PyStr × Nat)) (s : PState)
    (cd : Date) (stripped : PyStr) :
    Except PyError (PState × List Action) :=
  match parse_time_range stripped with
  | none => .ok (s, [])
  | some (st, et, desc) =>
    if st = [] then .ok (s, [])
    else
      let shm := float_time_to_hm st
      let ehm := float_time_to_hm et
      match build_iso_datetime cd shm.1 shm.2 with
      | .error e => .error e
      | .ok start_dt =>
        match build_iso_datetime cd ehm.1 ehm.2 with
        | .error e => .error e
        | .ok end_dt =>
          let proj_id :=
            if s.current_project.getD [] ≠ [] then
              dictGet project_map (pyLower (s.current_project.getD []))
            else none
          match proj_id with
          | none => .ok (s, [])
          | some pid =>
            if pid = 0 then .ok (s, [])
            else
              let task_id : Option Nat :=
                match cacheGet s.project_tasks_cache pid with
                | some tasks => matchTask (s.current_task.getD []) desc tasks
                | none => none
              match task_id with
              | none => .ok (s, [])
              | some tid =>
                if tid = 0 then .ok (s, [])
                else
                  let notes := desc ++ " (Auto entry for task ".data ++
                    [apos] ++ s.current_task.getD [] ++ [apos] ++
                    " in project ".data ++ [apos] ++
                    s.current_project.getD [] ++ [apos] ++ ")".data
                  .ok (s, [.createEvent start_dt end_dt tid notes])

/-- The in-block indentation dispatch of the driver: a line with
8 ≤ indent < 12 is a project line (set the project, clear the task, and
lazily fetch that project's remote tasks into the cache on its first
resolution), 12 ≤ indent < 16 is a task line, and indent ≥ 16 with a
truthy project and task is a time-entry line; anything else is ignored.
Python truthiness of `proj_id` makes a project id of 0 behave like an
unresolved project. -/
def handleBlockLine (project_map : List (PyStr × Nat))
    (fetch : Nat → List TaskRec) (s : PState) (cd : Date)
    (line stripped : PyStr) : Except PyError (PState × List Action) :=
  let indent := indentOf line
  if 8 ≤ indent ∧ indent < 12 then
    let s1 : PState :=
      { s with current_project := some stripped, current_task := none }
    match dictGet project_map (pyLower stripped) with
    | some pid =>
      if pid ≠ 0 ∧ cacheGet s1.project_tasks_cache pid = none then
        .ok ({ s1 with
               project_tasks_cache :=
                 s1.project_tasks_cache ++ [(pid, fetch pid)] },
             [.fetchTasks pid])
      else .ok (s1, [])
    | none => .ok (s1, [])
  else if 12 ≤ indent ∧ indent < 16 then
    .ok ({ s with current_task := some stripped }, [])
  else if 16 ≤ indent ∧ s.current_project.getD [] ≠ [] ∧
      s.current_task.getD [] ≠ [] then
    handleTimeLine project_map s cd stripped
  else .ok (s, [])

/-- Processing of one physical line of the document, in source order:
blank lines are skipped; a line whose stripped form starts with
`"# date"` is a date header (with exactly 3 whitespace-split tokens the
third is parsed as the date, which may raise; any other token count
sets the date to `None`), and it clears the block/project/task context;
a line stripping to `"timesheet"` case-insensitively opens the block;
everything else is dispatched on indentation when
`in_block and current_date` holds, and ignored otherwise. -/
def processLine (project_map : List (PyStr × Nat))
    (fetch : Nat → List TaskRec) (s : PState) (raw : PyStr) :
    Except PyError (PState × List Action) :=
  let line := raw
  let stripped := pyStrip raw
  if stripped = [] then .ok (s, [])
  else if startsWithList "# date".data stripped then
    if (pySplit stripped).length = 3 then
      match parse_date ((pySplit stripped).getD 2 []) with
      | .error e => .error e
      | .ok d =>
        .ok ({ s with
               current_date := some d, in_block := false,
               current_project := none, current_task := none }, [])
    else
      .ok ({ s with
             current_date := none, in_block := false,
             current_project := none, current_task := none }, [])
  else if pyLower stripped = "timesheet".data then
    .ok ({ s with
           in_block := true, current_project := none,
           current_task := none }, [])
  else
    match s.current_date with
    | some cd =>
      if s.in_block then handleBlockLine project_map fetch s cd line stripped
      else .ok (s, [])
    | none => .ok (s, [])

/-- Run the driver over the remaining lines.  The result is the final
state, the concatenated trace of gateway calls performed before any
uncaught exception, and the uncaught exception if one aborted the run
(`none` when the run completed). -/
def runLines (project_map : List (PyStr × Nat))
    (fetch : Nat → List TaskRec) :
    PState → List PyStr → PState × List Action × Option PyError
  | s, [] => (s, [], none)
  | s, l :: ls =>
    match processLine project_map fetch s l with
    | .error e => (s, [], some e)
    | .ok (s1, as1) =>
      let r := runLines project_map fetch s1 ls
      (r.1, as1 ++ r.2.1, r.2.2)

/-- The driver's initial local state. -/
def initState : PState :=
  { current_date := none, in_block := false, current_project := none,
    current_task := none, project_tasks_cache := [] }

/-- `process_timesheet_file`: fetch the project directory snapshot
(`project_map`, passed as the decoded result of `get_all_projects`),
then run the single pass over the document's lines.  The module-level
`task_cache` dictionary is in scope for the function (passed here
explicitly, as the value that global holds when the run starts) but the
function body never reads or writes it. -/
def process_timesheet_file (task_cache : List ((Nat × PyStr) × Nat))
    (project_map : List (PyStr × Nat)) (fetch : Nat → List TaskRec)
    (doc : List PyStr) : PState × List Action × Option PyError :=
  runLines project_map fetch initState doc

/-! ## Paginated task fetch -/

/-- One decoded response of the paginated `tasks/paginated` endpoint:
either an HTTP-level fetch error, or a page with its list of task
records.  The response at list position `i` is the remote's answer to
the request for page index `i`. -/
inductive PageResp where
  | fetchError : PageResp
  | page : List TaskRec → PageResp
deriving DecidableEq, Repr

/-- `get_project_tasks`: request pages 0, 1, 2, ... in order; break on
a fetch error, on an empty page, or after a page shorter than
`page_size`; keep, in page-then-list order, exactly the records whose
`project_id` equals the requested id (the source compares the decimal
renderings of the two ids, which on present numeric ids is id
equality). -/
def get_project_tasks (project_id : Nat) (page_size : Nat) :
    List PageResp → List TaskRec
  | [] => []
  | .fetchError :: _ => []
  | .page tasks :: rest =>
    if tasks = [] then []
    else
      tasks.filter (fun t => t.project_id == project_id) ++
        (if tasks.length < page_size then []
         else get_project_tasks project_id page_size rest)

/-- Modelled from the spec: the pages the fetch loop consumes — the
longest run of complete pages, closed by the first short, empty or
failed page (an empty or failed page contributes no records, a short
final page contributes its records).  This is the spec-side description
`get_project_tasks` is compared against in the pagination claim. -/
def leadPages (page_size : Nat) : List PageResp → List (List TaskRec)
  | [] => []
  | .fetchError :: _ => []
  | .page tasks :: rest =>
    if tasks = [] then []
    else
      tasks :: (if tasks.length < page_size then []
                else leadPages page_size rest)

/-- One-if-absent potential of a project id in the task cache: the
number of remote task fetches the driver may still perform for that id
(the fetch-once invariant is the statement that this potential plus the
fetches already performed never exceeds one). -/
def cachePot (pid : Nat) (c : List (Nat × List TaskRec)) : Nat :=
  if cacheGet c pid = none then 1 else 0

/-! ## Concrete fixtures

Concrete documents, directory snapshots and driver states used to
evaluate the embedded driver at specific inputs. -/

/-- A one-project directory snapshot: `Centurion` has remote id 7. -/
def exProjectMap : List (PyStr × Nat) :=
  [("centurion".data, 7)]

/-- A remote with one task per project, whose name contains the word
`design`. -/
def exFetch : Nat → List TaskRec :=
  fun _ => [⟨41, "Software design work".data, 7⟩]

/-- A well-formed three-level document: header, block marker, project,
task, one time-range line. -/
def exDocThreeLevel : List PyStr :=
  ["# date 290125".data, "    timesheet".data, "        Centurion".data,
   "            Software design".data,
   "                9.00 - 12.00 Coding the parser".data]

/-- A two-level document: no task line, two time-range lines under the
same project with the same description. -/
def exDocTwoLevel : List PyStr :=
  ["# date 290125".data, "    timesheet".data, "        Centurion".data,
   "                9.00 - 12.00 Software design".data,
   "                12.00 - 13.00 Software design".data]

/-- A two-level document with a single time-range line. -/
def exDocTwoLevelOne : List PyStr :=
  ["# date 290125".data, "    timesheet".data, "        Centurion".data,
   "                9.00 - 12.00 Software design".data]

/-- A document whose only line is a 3-token date header with day 32. -/
def exDocBadDate : List PyStr :=
  ["# date 320125".data]

/-- A document whose time-range line has start hour 25 under a project
absent from the directory. -/
def exDocHourOverflow : List PyStr :=
  ["# date 290125".data, "    timesheet".data, "        Ghost".data,
   "            Sometask".data,
   "                25.00 - 26.00 Overnight".data]

/-- A document opening with a malformed date header (four tokens). -/
def exDocBadHeader : List PyStr :=
  ["# date 290125 extra".data, "    timesheet".data,
   "        Centurion".data, "            Software design".data,
   "                9.00 - 12.00 Coding".data]

/-- A mid-run driver state: date parsed, block open, project and task
set, tasks for project 7 cached. -/
def exState : PState :=
  { current_date := some ⟨2025, 1, 29⟩, in_block := true,
    current_project := some "Centurion".data,
    current_task := some "Software design".data,
    project_tasks_cache := [(7, [⟨41, "Software design work".data, 7⟩])] }

/-- A mid-run driver state whose cached task list for project 7 has no
match for the current task or description. -/
def exStateNoMatch : PState :=
  { current_date := some ⟨2025, 1, 29⟩, in_block := true,
    current_project := some "Centurion".data,
    current_task := some "Sometask".data,
    project_tasks_cache := [(7, [⟨3, "Unrelated".data, 7⟩])] }

/-- A remote task list with a match in second position. -/
def exTasks : List TaskRec :=
  [⟨3, "Alpha list".data, 7⟩, ⟨9, "Beta".data, 7⟩]

/-- A physical time-range line at indentation 16. -/
def exTimeLine : PyStr :=
  "                9.00 - 12.00 Coding the parser".data

/-- A stripped time-range line, as the time-entry handler receives
it. -/
def exTimeEntry : PyStr :=
  "9.00 - 10.00 Work".data

/-- The notes the driver attaches to the event it creates from
`exTimeLine` in `exState`. -/
def exNotes : PyStr :=
  "Coding the parser (Auto entry for task ".data ++ [apos] ++
    "Software design".data ++ [apos] ++ " in project ".data ++ [apos] ++
    "Centurion".data ++ [apos] ++ ")".data

/-- A driver state right after a valid date header and the block
marker: date set, block open, no project or task yet, empty task
cache. -/
def exStateBlock : PState :=
  { current_date := some ⟨2025, 1, 29⟩, in_block := true,
    current_project := none, current_task := none,
    project_tasks_cache := [] }

/-- A physical project line at indentation 8. -/
def exProjectLine : PyStr :=
  "        Centurion".data

/-- A mid-run driver state naming a project absent from
`exProjectMap`. -/
def exStateGhost : PState :=
  { current_date := some ⟨2025, 1, 29⟩, in_block := true,
    current_project := some "Ghost".data,
    current_task := some "Sometask".data,
    project_tasks_cache := [] }

/-! ## Supporting lemmas -/

theorem digit_bounds {c : Char} (h : isDigitChar c = true) :
    48 ≤ c.toNat ∧ c.toNat ≤ 57 := by
  simpa [isDigitChar] using h

theorem decVal_foldl_lt (cs : List Char) :
    ∀ a : Nat, (∀ c ∈ cs, isDigitChar c = true) →
      cs.foldl (fun a c => a * 10 + (c.toNat - 48)) a <
        (a + 1) * 10 ^ cs.length := by
  induction cs with
  | nil => intro a _; simpa using Nat.lt_succ_self a
  | cons c cs ih =>
    intro a h
    have hc := digit_bounds (h c (by simp))
    have h1 := ih (a * 10 + (c.toNat - 48)) (fun d hd => h d (by simp [hd]))
    have h2 : (a * 10 + (c.toNat - 48) + 1) * 10 ^ cs.length ≤
        ((a + 1) * 10) * 10 ^ cs.length :=
      Nat.mul_le_mul_right _ (by omega)
    simp only [List.foldl_cons, List.length_cons, pow_succ]
    calc (cs.foldl (fun a c => a * 10 + (c.toNat - 48))
            (a * 10 + (c.toNat - 48)))
        < (a * 10 + (c.toNat - 48) + 1) * 10 ^ cs.length := h1
      _ ≤ ((a + 1) * 10) * 10 ^ cs.length := h2
      _ = (a + 1) * (10 ^ cs.length * 10) := by ring

theorem decVal_lt (cs : List Char) (h : ∀ c ∈ cs, isDigitChar c = true) :
    decVal cs < 10 ^ cs.length := by
  have := decVal_foldl_lt cs 0 h
  simpa [decVal] using this

theorem mkDate_ok (y m d : Nat) (h1 : 1 ≤ y) (h2 : y ≤ 9999) (h3 : 1 ≤ m)
    (h4 : m ≤ 12) (h5 : 1 ≤ d) (h6 : d ≤ daysInMonth y m) :
    mkDate y m d = .ok ⟨y, m, d⟩ := by
  simp [mkDate, h1, h2, h3, h4, h5, h6]

theorem parse_date_6 (d1 d2 m1 m2 y1 y2 : Char)
    (hall : ([d1, d2, m1, m2, y1, y2].all isDigitChar) = true) :
    parse_date [d1, d2, m1, m2, y1, y2] =
      mkDate (2000 + decVal [y1, y2]) (decVal [m1, m2]) (decVal [d1, d2]) := by
  simp only [List.all_cons, List.all_nil, Bool.and_eq_true, Bool.and_true] at hall
  obtain ⟨hd1, hd2, hm1, hm2, hy1, hy2⟩ := hall
  have b1 := digit_bounds hd1; have b2 := digit_bounds hd2
  have bm1 := digit_bounds hm1; have bm2 := digit_bounds hm2
  have c1 := digit_bounds hy1; have c2 := digit_bounds hy2
  have e2 : '2'.toNat = 50 := rfl
  have e0 : '0'.toNat = 48 := rfl
  simp only [parse_date, List.length_cons, List.length_nil, decDigits?,
    List.drop_succ_cons, List.drop_zero, List.take_succ_cons, List.take_zero,
    List.all_cons, List.all_nil]
  norm_num [isDigitChar, b1, b2, bm1, bm2, c1, c2, e2, e0]
  have h20 : decVal ['2', '0', y1, y2] = 2000 + decVal [y1, y2] := by
    simp [decVal, e2, e0]; omega
  rw [h20]
  simp

theorem parse_date_8 (d1 d2 m1 m2 y1 y2 y3 y4 : Char)
    (hall : ([d1, d2, m1, m2, y1, y2, y3, y4].all isDigitChar) = true) :
    parse_date [d1, d2, m1, m2, y1, y2, y3, y4] =
      mkDate (decVal [y1, y2, y3, y4]) (decVal [m1, m2]) (decVal [d1, d2]) := by
  simp only [List.all_cons, List.all_nil, Bool.and_eq_true, Bool.and_true] at hall
  obtain ⟨hd1, hd2, hm1, hm2, hy1, hy2, hy3, hy4⟩ := hall
  have b1 := digit_bounds hd1; have b2 := digit_bounds hd2
  have bm1 := digit_bounds hm1; have bm2 := digit_bounds hm2
  have c1 := digit_bounds hy1; have c2 := digit_bounds hy2
  have c3 := digit_bounds hy3; have c4 := digit_bounds hy4
  simp only [parse_date, List.length_cons, List.length_nil, decDigits?,
    List.drop_succ_cons, List.drop_zero, List.take_succ_cons, List.take_zero,
    List.all_cons, List.all_nil]
  norm_num [isDigitChar, b1, b2, bm1, bm2, c1, c2, c3, c4]
  simp

theorem parse_date_other (ds : PyStr) (h6 : ds.length ≠ 6)
    (h8 : ds.length ≠ 8) : parse_date ds = .error .valueError := by
  simp [parse_date, h6, h8]

/-! ## Claim C6 -/

/-- C6: for every 6-digit date token `ddmmyy` (whose digits form a valid
calendar date), `parse_date` returns the date with year `2000 + yy`,
month `mm` and day `dd`; for every 8-digit token `ddmmyyyy` it uses the
literal year digits; and a token of any other length fails with a
`ValueError` rather than returning a date. -/
theorem c6_parse_date_spec :
    (∀ d1 d2 m1 m2 y1 y2 : Char,
      ([d1, d2, m1, m2, y1, y2].all isDigitChar) = true →
      1 ≤ decVal [m1, m2] → decVal [m1, m2] ≤ 12 →
      1 ≤ decVal [d1, d2] →
      decVal [d1, d2] ≤
        daysInMonth (2000 + decVal [y1, y2]) (decVal [m1, m2]) →
      parse_date [d1, d2, m1, m2, y1, y2] =
        .ok ⟨2000 + decVal [y1, y2], decVal [m1, m2], decVal [d1, d2]⟩) ∧
    (∀ d1 d2 m1 m2 y1 y2 y3 y4 : Char,
      ([d1, d2, m1, m2, y1, y2, y3, y4].all isDigitChar) = true →
      1 ≤ decVal [y1, y2, y3, y4] →
      1 ≤ decVal [m1, m2] → decVal [m1, m2] ≤ 12 →
      1 ≤ decVal [d1, d2] →
      decVal [d1, d2] ≤
        daysInMonth (decVal [y1, y2, y3, y4]) (decVal [m1, m2]) →
      parse_date [d1, d2, m1, m2, y1, y2, y3, y4] =
        .ok ⟨decVal [y1, y2, y3, y4], decVal [m1, m2], decVal [d1, d2]⟩) ∧
    (∀ ds : PyStr, ds.length ≠ 6 → ds.length ≠ 8 →
      parse_date ds = .error .valueError) := by
  refine ⟨?_, ?_, parse_date_other⟩
  · intro d1 d2 m1 m2 y1 y2 hall hm1 hm2 hd1 hd2
    have hy : ∀ c ∈ [y1, y2], isDigitChar c = true := by
      simp only [List.all_cons, List.all_nil, Bool.and_eq_true,
        Bool.and_true] at hall
      intro c hc
      rcases List.mem_cons.mp hc with rfl | hc
      · exact hall.2.2.2.2.1
      · rcases List.mem_singleton.mp hc with rfl
        exact hall.2.2.2.2.2
    have hylt := decVal_lt [y1, y2] hy
    rw [parse_date_6 d1 d2 m1 m2 y1 y2 hall]
    exact mkDate_ok _ _ _ (by omega) (by simp at hylt; omega) hm1 hm2 hd1 hd2
  · intro d1 d2 m1 m2 y1 y2 y3 y4 hall hy1 hm1 hm2 hd1 hd2
    have hy : ∀ c ∈ [y1, y2, y3, y4], isDigitChar c = true := by
      simp only [List.all_cons, List.all_nil, Bool.and_eq_true,
        Bool.and_true] at hall
      intro c hc
      rcases List.mem_cons.mp hc with rfl | hc
      · exact hall.2.2.2.2.1
      rcases List.mem_cons.mp hc with rfl | hc
      · exact hall.2.2.2.2.2.1
      rcases List.mem_cons.mp hc with rfl | hc
      · exact hall.2.2.2.2.2.2.1
      rcases List.mem_singleton.mp hc with rfl
      exact hall.2.2.2.2.2.2.2
    have hylt := decVal_lt [y1, y2, y3, y4] hy
    rw [parse_date_8 d1 d2 m1 m2 y1 y2 y3 y4 hall]
    exact mkDate_ok _ _ _ hy1 (by simp at hylt; omega) hm1 hm2 hd1 hd2

/-- Witness for `c6_parse_date_spec`: the token `290125` parses to
2025-01-29, the token `29012025` parses to the same date with a literal
year, and the 7-character token `1234567` fails. -/
theorem c6_parse_date_spec_witness :
    parse_date ['2', '9', '0', '1', '2', '5'] = .ok ⟨2025, 1, 29⟩ ∧
    parse_date ['2', '9', '0', '1', '2', '0', '2', '5'] =
      .ok ⟨2025, 1, 29⟩ ∧
    parse_date ['1', '2', '3', '4', '5', '6', '7'] =
      .error .valueError := by
  refine ⟨?_, ?_, ?_⟩
  · rw [c6_parse_date_spec.1 '2' '9' '0' '1' '2' '5' (by decide) (by decide)
      (by decide) (by decide) (by decide)]
    decide
  · rw [c6_parse_date_spec.2.1 '2' '9' '0' '1' '2' '0' '2' '5' (by decide)
      (by decide) (by decide) (by decide) (by decide) (by decide)]
    decide
  · exact c6_parse_date_spec.2.2 _ (by decide) (by decide)

theorem takeWhile_append_all {p : Char → Bool} {hs : List Char} (x : Char)
    (rest : List Char) (hall : ∀ c ∈ hs, p c = true) (hx : p x = false) :
    (hs ++ x :: rest).takeWhile p = hs ∧
    (hs ++ x :: rest).dropWhile p = x :: rest := by
  induction hs with
  | nil => simp [List.takeWhile, List.dropWhile, hx]
  | cons c cs ih =>
    have hc : p c = true := hall c (by simp)
    have h2 := ih (fun d hd => hall d (by simp [hd]))
    simp [List.takeWhile_cons, List.dropWhile_cons, hc, h2.1, h2.2]

theorem digit_ne_dot {c : Char} (h : isDigitChar c = true) :
    (decide (c ≠ '.')) = true := by
  have hb := digit_bounds h
  simp only [decide_eq_true_eq, ne_eq]
  intro heq
  rw [heq] at hb
  simp at hb

theorem float_time_to_hm_eq (hs fs : List Char)
    (hh : ∀ c ∈ hs, isDigitChar c = true) :
    float_time_to_hm (hs ++ '.' :: fs) =
      (decVal hs, pyRoundNat (60 * decVal fs) (10 ^ fs.length)) := by
  have hsplit := takeWhile_append_all (p := fun c => decide (c ≠ '.')) '.' fs
    (fun c hc => digit_ne_dot (hh c hc)) (by simp)
  simp only [ne_eq, decide_not] at hsplit
  simp [float_time_to_hm, hsplit.1, hsplit.2]

theorem pyFloatTok_eq (hs fs : List Char)
    (hh : ∀ c ∈ hs, isDigitChar c = true) :
    pyFloatTok (hs ++ '.' :: fs) =
      (decVal hs : ℚ) + (decVal fs : ℚ) / (10 ^ fs.length : ℚ) := by
  have hsplit := takeWhile_append_all (p := fun c => decide (c ≠ '.')) '.' fs
    (fun c hc => digit_ne_dot (hh c hc)) (by simp)
  simp only [ne_eq, decide_not] at hsplit
  simp [pyFloatTok, hsplit.1, hsplit.2]

theorem pyRoundNat_cast (n d : Nat) (hd : 0 < d) :
    (pyRoundNat n d : ℤ) = pyRound ((n : ℚ) / (d : ℚ)) := by
  have hd0 : (0:ℚ) < (d:ℚ) := by exact_mod_cast hd
  have hdne : (d:ℚ) ≠ 0 := ne_of_gt hd0
  have hq : ((n / d : ℕ) : ℚ) + ((n % d : ℕ) : ℚ) / d = (n:ℚ)/d := by
    field_simp
    rw [mul_comm]
    exact_mod_cast Nat.div_add_mod n d
  have hr0 : (0:ℚ) ≤ ((n % d : ℕ) : ℚ) / d := by positivity
  have hrlt : ((n % d : ℕ) : ℚ) / d < 1 := by
    rw [div_lt_one hd0]
    exact_mod_cast Nat.mod_lt n hd
  have hfl : ⌊(n:ℚ)/d⌋ = ((n / d : ℕ) : ℤ) := by
    rw [← hq, Int.floor_nat_add,
      Int.floor_eq_zero_iff.mpr (Set.mem_Ico.mpr ⟨hr0, hrlt⟩), add_zero]
  have hfrac : (n:ℚ)/d - (⌊(n:ℚ)/d⌋ : ℚ) = ((n % d : ℕ) : ℚ) / d := by
    rw [hfl, ← hq]
    have hcc : ((((n / d : ℕ) : ℤ)) : ℚ) = ((n / d : ℕ) : ℚ) := by norm_cast
    rw [hcc]; ring
  have hiff1 : (((n % d : ℕ) : ℚ)/d < 1/2) ↔ (2 * (n % d) < d) := by
    rw [div_lt_div_iff₀ hd0 (by norm_num : (0:ℚ) < 2)]
    constructor
    · intro h
      have h2 : (((n % d) * 2 : ℕ) : ℚ) < ((d : ℕ) : ℚ) := by push_cast; linarith
      have h3 := Nat.cast_lt (α := ℚ) |>.mp h2
      omega
    · intro h
      have h2 : (((2 * (n % d)) : ℕ) : ℚ) < ((d : ℕ) : ℚ) := by exact_mod_cast h
      push_cast at h2
      linarith
  have hiff2 : (1/2 < ((n % d : ℕ) : ℚ)/d) ↔ (d < 2 * (n % d)) := by
    rw [div_lt_div_iff₀ (by norm_num : (0:ℚ) < 2) hd0]
    constructor
    · intro h
      have h2 : ((d : ℕ) : ℚ) < (((n % d) * 2 : ℕ) : ℚ) := by push_cast; linarith
      have h3 := Nat.cast_lt (α := ℚ) |>.mp h2
      omega
    · intro h
      have h2 : ((d : ℕ) : ℚ) < (((2 * (n % d)) : ℕ) : ℚ) := by exact_mod_cast h
      push_cast at h2
      linarith
  have hpar : (((n / d : ℕ) : ℤ) % 2 = 0) ↔ ((n / d) % 2 = 0) := by omega
  unfold pyRound pyRoundNat
  rw [hfrac, hfl]
  by_cases h1 : 2 * (n % d) < d
  · rw [if_pos (hiff1.mpr h1), if_pos h1]
  · rw [if_neg (fun hc => h1 (hiff1.mp hc)), if_neg h1]
    by_cases h2 : d < 2 * (n % d)
    · rw [if_pos (hiff2.mpr h2), if_pos h2]
      push_cast; ring
    · rw [if_neg (fun hc => h2 (hiff2.mp hc)), if_neg h2]
      by_cases h3 : (n / d) % 2 = 0
      · rw [if_pos (hpar.mpr h3), if_pos h3]
      · rw [if_neg (fun hc => h3 (hpar.mp hc)), if_neg h3]
        push_cast; ring

/-! ## Claim C7 -/

/-- C7: for every decimal-hour token `h.f` as matched by the time-range
pattern (1-2 integer digits, a dot, 1-2 fraction digits — the theorem
holds for any digit counts), `float_time_to_hm` returns the pair
(floor of the decimal value, fractional part times 60 rounded to the
nearest integer) — the literal-decimal interpretation.  In particular
`13.5` yields `(13, 30)`, and `9.30` yields `(9, 18)`, the value of
`round(0.30 * 60)` under round-half-to-even, not the base-60 reading
`(9, 30)`. -/
theorem c7_float_time_to_hm_spec :
    (∀ hs fs : List Char,
      (∀ c ∈ hs, isDigitChar c = true) → (∀ c ∈ fs, isDigitChar c = true) →
      (((float_time_to_hm (hs ++ '.' :: fs)).1 : ℤ) =
          ⌊pyFloatTok (hs ++ '.' :: fs)⌋ ∧
        ((float_time_to_hm (hs ++ '.' :: fs)).2 : ℤ) =
          pyRound ((pyFloatTok (hs ++ '.' :: fs) -
            (⌊pyFloatTok (hs ++ '.' :: fs)⌋ : ℚ)) * 60))) ∧
    float_time_to_hm ('1' :: '3' :: '.' :: ['5']) = (13, 30) ∧
    float_time_to_hm ('9' :: '.' :: ['3', '0']) = (9, 18) ∧
    pyRoundNat (60 * 30) 100 = 18 ∧
    float_time_to_hm ('9' :: '.' :: ['3', '0']) ≠ (9, 30) := by
  refine ⟨?_, by decide, by decide, by decide, by decide⟩
  intro hs fs hh hf
  have he := float_time_to_hm_eq hs fs hh
  have hpf := pyFloatTok_eq hs fs hh
  have h10 : (0:ℚ) < (10 ^ fs.length : ℚ) := by positivity
  have hFlt : (decVal fs : ℚ) / (10 ^ fs.length : ℚ) < 1 := by
    rw [div_lt_one h10]
    exact_mod_cast decVal_lt fs hf
  have hF0 : (0:ℚ) ≤ (decVal fs : ℚ) / (10 ^ fs.length : ℚ) := by positivity
  have hfloor : ⌊pyFloatTok (hs ++ '.' :: fs)⌋ = (decVal hs : ℤ) := by
    rw [hpf, Int.floor_nat_add,
      Int.floor_eq_zero_iff.mpr (Set.mem_Ico.mpr ⟨hF0, hFlt⟩), add_zero]
  constructor
  · rw [he, hfloor]
  · rw [he]
    have hfrac : pyFloatTok (hs ++ '.' :: fs) -
        (⌊pyFloatTok (hs ++ '.' :: fs)⌋ : ℚ) =
        (decVal fs : ℚ) / (10 ^ fs.length : ℚ) := by
      rw [hfloor, hpf]
      push_cast
      ring
    rw [hfrac]
    have hmul : ((decVal fs : ℚ) / (10 ^ fs.length : ℚ)) * 60 =
        ((60 * decVal fs : ℕ) : ℚ) / ((10 ^ fs.length : ℕ) : ℚ) := by
      push_cast
      ring
    rw [hmul, ← pyRoundNat_cast _ _ (by positivity)]

/-- Witness for `c7_float_time_to_hm_spec`: the general clause applied
to the token `13.5`. -/
theorem c7_float_time_to_hm_spec_witness :
    ((float_time_to_hm (['1', '3'] ++ '.' :: ['5'])).1 : ℤ) =
        ⌊pyFloatTok (['1', '3'] ++ '.' :: ['5'])⌋ ∧
      ((float_time_to_hm (['1', '3'] ++ '.' :: ['5'])).2 : ℤ) =
        pyRound ((pyFloatTok (['1', '3'] ++ '.' :: ['5']) -
          (⌊pyFloatTok (['1', '3'] ++ '.' :: ['5'])⌋ : ℚ)) * 60) :=
  c7_float_time_to_hm_spec.1 ['1', '3'] ['5'] (by decide) (by decide)

/-! ## Driver lemmas -/

theorem handleTimeLine_shape (pm : List (PyStr × Nat)) (s : PState)
    (cd : Date) (stripped : PyStr) (p : PState × List Action)
    (h : handleTimeLine pm s cd stripped = .ok p) :
    p.1 = s ∧ (p.2 = [] ∨ ∃ a b c d, p.2 = [Action.createEvent a b c d]) := by
  unfold handleTimeLine at h
  repeat' split at h
  all_goals (try (simp only [] at h))
  repeat' split at h
  all_goals (try (cases h))
  all_goals (try (exact ⟨rfl, Or.inl rfl⟩))
  all_goals (try (exact ⟨rfl, Or.inr ⟨_, _, _, _, rfl⟩⟩))

theorem handleBlockLine_shape (pm : List (PyStr × Nat))
    (fetch : Nat → List TaskRec) (s : PState) (cd : Date)
    (line stripped : PyStr) (p : PState × List Action)
    (h : handleBlockLine pm fetch s cd line stripped = .ok p) :
    p.2 = [] ∨ (∃ pid, p.2 = [Action.fetchTasks pid]) ∨
      ∃ a b c d, p.2 = [Action.createEvent a b c d] := by
  unfold handleBlockLine at h
  repeat' split at h
  all_goals (try (simp only [] at h))
  repeat' split at h
  all_goals (try (cases h))
  all_goals (try (exact Or.inl rfl))
  all_goals (try (exact Or.inr (Or.inl ⟨_, rfl⟩)))
  all_goals (rcases (handleTimeLine_shape _ _ _ _ _ h).2 with h2 | h2)
  all_goals (try (exact Or.inl h2))
  all_goals (exact Or.inr (Or.inr h2))

theorem processLine_shape (pm : List (PyStr × Nat))
    (fetch : Nat → List TaskRec) (s : PState) (raw : PyStr)
    (p : PState × List Action)
    (h : processLine pm fetch s raw = .ok p) :
    p.2 = [] ∨ (∃ pid, p.2 = [Action.fetchTasks pid]) ∨
      ∃ a b c d, p.2 = [Action.createEvent a b c d] := by
  unfold processLine at h
  repeat' split at h
  all_goals (try (simp only [] at h))
  repeat' split at h
  all_goals (try (cases h))
  all_goals (try (exact Or.inl rfl))
  all_goals (exact handleBlockLine_shape _ _ _ _ _ _ _ h)

theorem cacheGet_append (c : List (Nat × List TaskRec)) (k j : Nat)
    (v : List TaskRec) :
    cacheGet (c ++ [(k, v)]) j =
      match cacheGet c j with
      | some x => some x
      | none => if k = j then some v else none := by
  induction c with
  | nil =>
    by_cases hkj : k = j
    · simp [cacheGet, hkj]
    · have hbeq : (k == j) = false := by simp [hkj]
      simp [cacheGet, hbeq, hkj]
  | cons kv c ih =>
    by_cases hk : kv.1 = j
    · have hbeq : (kv.1 == j) = true := by simp [hk]
      simp [cacheGet, List.cons_append, List.find?, hbeq]
    · have hbeq : (kv.1 == j) = false := by simp [hk]
      simp only [cacheGet, List.cons_append, List.find?, hbeq] at *
      exact ih

theorem handleBlockLine_pot (pm : List (PyStr × Nat))
    (fetch : Nat → List TaskRec) (s : PState) (cd : Date)
    (line stripped : PyStr) (p : PState × List Action) (pid : Nat)
    (h : handleBlockLine pm fetch s cd line stripped = .ok p) :
    p.2.countP (isFetch pid) + cachePot pid p.1.project_tasks_cache ≤
      cachePot pid s.project_tasks_cache := by
  unfold handleBlockLine at h
  simp only [] at h
  split at h
  · split at h
    · rename_i pid0 hdg
      split at h
      · rename_i hcond
        cases h
        by_cases hpp : pid0 = pid
        · subst hpp
          simp [List.countP_cons, List.countP_nil, isFetch, cachePot,
            cacheGet_append, hcond.2]
        · have hif : (isFetch pid (Action.fetchTasks pid0)) = false := by
            simp [isFetch, hpp]
          simp only [List.countP_cons, List.countP_nil, hif, cachePot,
            cacheGet_append]
          cases hc : cacheGet s.project_tasks_cache pid <;> simp [hc, hpp]
      · cases h; simp [cachePot]
    · cases h; simp [cachePot]
  · split at h
    · cases h; simp [cachePot]
    · split at h
      · rcases handleTimeLine_shape _ _ _ _ _ h with
          ⟨hs, he | ⟨a, b, c, d, he⟩⟩ <;>
          simp [hs, he, List.countP_cons, List.countP_nil, isFetch]
      · cases h; simp [cachePot]

theorem processLine_pot (pm : List (PyStr × Nat))
    (fetch : Nat → List TaskRec) (s : PState) (raw : PyStr)
    (p : PState × List Action) (pid : Nat)
    (h : processLine pm fetch s raw = .ok p) :
    p.2.countP (isFetch pid) + cachePot pid p.1.project_tasks_cache ≤
      cachePot pid s.project_tasks_cache := by
  unfold processLine at h
  simp only [] at h
  repeat' split at h
  all_goals (try (cases h))
  all_goals (try (simp [cachePot]))
  exact handleBlockLine_pot _ _ _ _ _ _ _ _ h

theorem processLine_dateNone (pm : List (PyStr × Nat))
    (fetch : Nat → List TaskRec) (s : PState) (raw : PyStr)
    (hd : s.current_date = none)
    (hh : startsWithList "# date".data (pyStrip raw) = false) :
    ∃ s', processLine pm fetch s raw = .ok (s', []) ∧
      s'.current_date = none := by
  unfold processLine
  simp only [hh, Bool.false_eq_true, if_false]
  by_cases hb : pyStrip raw = []
  · exact ⟨s, by simp [hb], hd⟩
  · by_cases ht : pyLower (pyStrip raw) = "timesheet".data
    · exact ⟨{ s with
          in_block := true, current_project := none,
          current_task := none }, by simp [hb, ht], by simp [hd]⟩
    · refine ⟨s, ?_, hd⟩
      simp only [if_neg hb, if_neg ht]
      rw [hd]

theorem processLine_taskNone (pm : List (PyStr × Nat))
    (fetch : Nat → List TaskRec) (s : PState) (raw : PyStr)
    (p : PState × List Action)
    (ht : s.current_task = none)
    (hind : ¬(12 ≤ indentOf raw ∧ indentOf raw < 16))
    (h : processLine pm fetch s raw = .ok p) :
    p.1.current_task = none ∧ p.2.countP isCreateEvent = 0 := by
  unfold processLine at h
  simp only [] at h
  repeat' split at h
  all_goals (try (cases h))
  all_goals (try (exact ⟨rfl, rfl⟩))
  all_goals (try (exact ⟨ht, rfl⟩))
  unfold handleBlockLine at h
  simp only [] at h
  repeat' split at h
  all_goals (try (cases h))
  all_goals (try (exact ⟨rfl, by simp [List.countP_cons, List.countP_nil,
    isCreateEvent]⟩))
  all_goals (try (exact ⟨ht, rfl⟩))
  all_goals (rename_i hcond; rw [ht] at hcond; simp at hcond)

theorem handleTimeLine_event (pm : List (PyStr × Nat)) (s : PState)
    (cd : Date) (stripped : PyStr) (p : PState × List Action)
    (a b : Instant) (tid : Nat) (nts : PyStr)
    (h : handleTimeLine pm s cd stripped = .ok p)
    (hmem : Action.createEvent a b tid nts ∈ p.2) :
    ∃ st et desc, parse_time_range stripped = some (st, et, desc) := by
  unfold handleTimeLine at h
  repeat' split at h
  all_goals (try (simp only [] at h))
  repeat' split at h
  all_goals (try (cases h))
  all_goals (try (simp at hmem))
  all_goals (exact ⟨_, _, _, by assumption⟩)

theorem processLine_event (pm : List (PyStr × Nat))
    (fetch : Nat → List TaskRec) (s : PState) (raw : PyStr)
    (p : PState × List Action) (a b : Instant) (tid : Nat) (nts : PyStr)
    (h : processLine pm fetch s raw = .ok p)
    (hmem : Action.createEvent a b tid nts ∈ p.2) :
    s.in_block = true ∧ s.current_date ≠ none ∧
      s.current_project.getD [] ≠ [] ∧ s.current_task.getD [] ≠ [] ∧
      16 ≤ indentOf raw ∧
      ∃ st et desc, parse_time_range (pyStrip raw) = some (st, et, desc) := by
  unfold processLine at h
  simp only [] at h
  repeat' split at h
  all_goals (try (cases h))
  all_goals (try (simp at hmem))
  rename_i hcd hib
  unfold handleBlockLine at h
  simp only [] at h
  repeat' split at h
  all_goals (try (cases h))
  all_goals (try (simp at hmem))
  rename_i hcond
  obtain ⟨h16, hcp, hct⟩ := hcond
  exact ⟨hib, by simp [hcd], hcp, hct, h16,
    handleTimeLine_event _ _ _ _ _ _ _ _ _ h hmem⟩

theorem runLines_noCreateTask (pm : List (PyStr × Nat))
    (fetch : Nat → List TaskRec) :
    ∀ (ls : List PyStr) (s : PState),
      (runLines pm fetch s ls).2.1.countP isCreateTask = 0 := by
  intro ls
  induction ls with
  | nil => intro s; simp [runLines]
  | cons l ls ih =>
    intro s
    unfold runLines
    cases hpl : processLine pm fetch s l with
    | error e => simp
    | ok p =>
      obtain ⟨s1, as1⟩ := p
      simp only [List.countP_append]
      rcases processLine_shape _ _ _ _ _ hpl with h0 | ⟨pid, h0⟩ |
        ⟨a, b, c, d, h0⟩ <;>
        simp only at h0 <;>
        simp [h0, List.countP_cons, List.countP_nil, isCreateTask, ih]

theorem runLines_fetchPot (pm : List (PyStr × Nat))
    (fetch : Nat → List TaskRec) (pid : Nat) :
    ∀ (ls : List PyStr) (s : PState),
      (runLines pm fetch s ls).2.1.countP (isFetch pid) +
        cachePot pid (runLines pm fetch s ls).1.project_tasks_cache ≤
        cachePot pid s.project_tasks_cache := by
  intro ls
  induction ls with
  | nil => intro s; simp [runLines]
  | cons l ls ih =>
    intro s
    unfold runLines
    cases hpl : processLine pm fetch s l with
    | error e => simp
    | ok p =>
      obtain ⟨s1, as1⟩ := p
      have h1 := processLine_pot _ _ _ _ _ pid hpl
      have h2 := ih s1
      simp only [List.countP_append]
      simp only at h1
      omega

theorem runLines_dateNone (pm : List (PyStr × Nat))
    (fetch : Nat → List TaskRec) :
    ∀ (ls : List PyStr) (s : PState),
      s.current_date = none →
      (∀ l ∈ ls, startsWithList "# date".data (pyStrip l) = false) →
      (runLines pm fetch s ls).2.1 = [] := by
  intro ls
  induction ls with
  | nil => intro s _ _; simp [runLines]
  | cons l ls ih =>
    intro s hd hall
    obtain ⟨s', hpl, hd'⟩ :=
      processLine_dateNone pm fetch s l hd (hall l (by simp))
    unfold runLines
    rw [hpl]
    simpa using ih s' hd' (fun x hx => hall x (by simp [hx]))

theorem runLines_taskNone (pm : List (PyStr × Nat))
    (fetch : Nat → List TaskRec) :
    ∀ (ls : List PyStr) (s : PState),
      s.current_task = none →
      (∀ l ∈ ls, ¬(12 ≤ indentOf l ∧ indentOf l < 16)) →
      (runLines pm fetch s ls).2.1.countP isCreateEvent = 0 := by
  intro ls
  induction ls with
  | nil => intro s _ _; simp [runLines]
  | cons l ls ih =>
    intro s ht hall
    unfold runLines
    cases hpl : processLine pm fetch s l with
    | error e => simp
    | ok p =>
      obtain ⟨s1, as1⟩ := p
      obtain ⟨ht1, hc1⟩ :=
        processLine_taskNone _ _ _ _ _ ht (hall l (by simp)) hpl
      simp only [List.countP_append]
      simp only at ht1 hc1
      rw [hc1, ih s1 ht1 (fun x hx => hall x (by simp [hx]))]

theorem processLine_badHeader (pm : List (PyStr × Nat))
    (fetch : Nat → List TaskRec) (s : PState) (raw : PyStr)
    (h1 : startsWithList "# date".data (pyStrip raw) = true)
    (h2 : (pySplit (pyStrip raw)).length ≠ 3) :
    processLine pm fetch s raw =
      .ok (⟨none, false, none, none, s.project_tasks_cache⟩, []) := by
  unfold processLine
  have hb : pyStrip raw ≠ [] := by
    intro he
    rw [he] at h1
    exact absurd h1 (by decide)
  simp [hb, h1, h2]

theorem processLine_badDateToken (pm : List (PyStr × Nat))
    (fetch : Nat → List TaskRec) (s : PState) (raw : PyStr) (e : PyError)
    (h1 : startsWithList "# date".data (pyStrip raw) = true)
    (h2 : (pySplit (pyStrip raw)).length = 3)
    (h3 : parse_date ((pySplit (pyStrip raw)).getD 2 []) = .error e) :
    processLine pm fetch s raw = .error e := by
  unfold processLine
  have hb : pyStrip raw ≠ [] := by
    intro he
    rw [he] at h1
    exact absurd h1 (by decide)
  have hlen : 2 < (pySplit (pyStrip raw)).length := by omega
  have hg : (pySplit (pyStrip raw)).getD 2 [] = (pySplit (pyStrip raw))[2] :=
    List.getD_eq_getElem _ _ hlen
  rw [hg] at h3
  simp [hb, h1, h2, h3]

theorem processLine_fetch_necessity (pm : List (PyStr × Nat))
    (fetch : Nat → List TaskRec) (s : PState) (raw : PyStr)
    (p : PState × List Action) (pid : Nat)
    (h : processLine pm fetch s raw = .ok p)
    (hmem : Action.fetchTasks pid ∈ p.2) :
    s.in_block = true ∧ s.current_date ≠ none ∧
      8 ≤ indentOf raw ∧ indentOf raw < 12 ∧
      dictGet pm (pyLower (pyStrip raw)) = some pid ∧ pid ≠ 0 ∧
      cacheGet s.project_tasks_cache pid = none ∧
      cacheGet p.1.project_tasks_cache pid = some (fetch pid) := by
  unfold processLine at h
  simp only [] at h
  repeat' split at h
  all_goals (try (cases h))
  all_goals (try (simp at hmem))
  rename_i hcd hib
  unfold handleBlockLine at h
  simp only [] at h
  repeat' split at h
  all_goals (try (cases h))
  all_goals (try (simp at hmem))
  · rename_i hind xo pid0 hdg hcond
    subst hmem
    refine ⟨hib, by simp [hcd], hind.1, hind.2, hdg, hcond.1, hcond.2, ?_⟩
    simp [cacheGet_append, hcond.2]
  · rcases handleTimeLine_shape _ _ _ _ _ h with ⟨hs, he | ⟨a, b, c, d, he⟩⟩ <;>
      (rw [he] at hmem; simp at hmem)

theorem processLine_fetch_trigger (pm : List (PyStr × Nat))
    (fetch : Nat → List TaskRec) (s : PState) (raw : PyStr) (cd : Date)
    (pid : Nat)
    (hib : s.in_block = true) (hcd : s.current_date = some cd)
    (hb : pyStrip raw ≠ [])
    (hnd : startsWithList "# date".data (pyStrip raw) = false)
    (hnt : pyLower (pyStrip raw) ≠ "timesheet".data)
    (hind : 8 ≤ indentOf raw ∧ indentOf raw < 12)
    (hdg : dictGet pm (pyLower (pyStrip raw)) = some pid)
    (hz : pid ≠ 0)
    (hcn : cacheGet s.project_tasks_cache pid = none) :
    processLine pm fetch s raw =
      .ok (⟨some cd, true, some (pyStrip raw), none,
            s.project_tasks_cache ++ [(pid, fetch pid)]⟩,
           [Action.fetchTasks pid]) := by
  unfold processLine
  simp only [if_neg hb, hnd, Bool.false_eq_true, if_false, if_neg hnt]
  rw [hcd, hib]
  unfold handleBlockLine
  simp only [if_pos hind, hdg, if_true]
  rw [if_pos ⟨hz, hcn⟩, hcd, hib]

theorem processLine_cacheMono (pm : List (PyStr × Nat))
    (fetch : Nat → List TaskRec) (s : PState) (raw : PyStr)
    (p : PState × List Action) (pid : Nat) (v : List TaskRec)
    (h : processLine pm fetch s raw = .ok p)
    (hc : cacheGet s.project_tasks_cache pid = some v) :
    cacheGet p.1.project_tasks_cache pid = some v := by
  unfold processLine at h
  simp only [] at h
  repeat' split at h
  all_goals (try (cases h))
  all_goals (try (exact hc))
  unfold handleBlockLine at h
  simp only [] at h
  repeat' split at h
  all_goals (try (cases h))
  all_goals (try (exact hc))
  · simp only []
    rw [cacheGet_append, hc]
  · rw [(handleTimeLine_shape _ _ _ _ _ h).1]
    exact hc

theorem handleTimeLine_parseNone (pm : List (PyStr × Nat)) (s : PState)
    (cd : Date) (stripped : PyStr)
    (hp : parse_time_range stripped = none) :
    handleTimeLine pm s cd stripped = .ok (s, []) := by
  unfold handleTimeLine
  rw [hp]

theorem build_iso_datetime_ok (d : Date) (h m : Nat) (hh : h < 24)
    (hm : m < 60) :
    build_iso_datetime d h m = .ok ⟨d.year, d.month, d.day, h, m⟩ := by
  simp [build_iso_datetime, hh, hm]

theorem handleTimeLine_skip (pm : List (PyStr × Nat)) (s : PState) (cd : Date)
    (stripped st et desc : PyStr)
    (hp : parse_time_range stripped = some (st, et, desc))
    (hst : st ≠ [])
    (hsh : (float_time_to_hm st).1 < 24) (hsm : (float_time_to_hm st).2 < 60)
    (heh : (float_time_to_hm et).1 < 24) (hem : (float_time_to_hm et).2 < 60)
    (hcase :
      dictGet pm (pyLower (s.current_project.getD [])) = none ∨
      ∀ pid, dictGet pm (pyLower (s.current_project.getD [])) = some pid →
        pid ≠ 0 →
        (cacheGet s.project_tasks_cache pid = none ∨
         ∃ tasks, cacheGet s.project_tasks_cache pid = some tasks ∧
           matchTask (s.current_task.getD []) desc tasks = none)) :
    handleTimeLine pm s cd stripped = .ok (s, []) := by
  unfold handleTimeLine
  rw [hp]
  simp only [if_neg hst]
  rw [build_iso_datetime_ok cd _ _ hsh hsm, build_iso_datetime_ok cd _ _ heh hem]
  by_cases hcp : s.current_project.getD [] = []
  · simp [hcp]
  · simp only [ne_eq, hcp, not_false_eq_true, if_true]
    rcases hcase with hnone | hres
    · simp [hnone]
    · cases hpid : dictGet pm (pyLower (s.current_project.getD [])) with
      | none => simp
      | some pid =>
        by_cases hz : pid = 0
        · simp [hz]
        · rcases hres pid hpid hz with hcn | ⟨tasks, hcs, hmn⟩
          · simp [hcn]
          · simp [hcs, hmn]

/-! ## Claim C1 -/

/-- C1 counterexample: on a two-level document with two time-range
lines under the same project carrying the same description, the driver
makes zero `createTask` calls — not exactly one as claimed — and
creates zero events rather than two referencing a created task. -/
theorem c1_counterexample_two_level_no_creation :
    ¬((process_timesheet_file [] exProjectMap exFetch
        exDocTwoLevel).2.1.countP isCreateTask = 1) ∧
    (process_timesheet_file [] exProjectMap exFetch exDocTwoLevel).2.1.countP
        isCreateTask = 0 ∧
    (process_timesheet_file [] exProjectMap exFetch exDocTwoLevel).2.1.countP
        isCreateEvent = 0 := by
  refine ⟨by decide, by decide, by decide⟩

/-- C1 amended: the at-most-one bound on remote task creation per
(project, description) pair holds vacuously — the driver never makes a
task-creation call on any run; and for a two-level document (one with
no task-depth lines), the time-range lines produce no task creations
and no events at all, because the time-entry branch requires a current
task. -/
theorem c1_at_most_one_task_creation_amended :
    (∀ tc pm fetch doc,
      (process_timesheet_file tc pm fetch doc).2.1.countP isCreateTask = 0) ∧
    (∀ tc pm fetch doc,
      (∀ l ∈ doc, ¬(12 ≤ indentOf l ∧ indentOf l < 16)) →
      (process_timesheet_file tc pm fetch doc).2.1.countP isCreateTask = 0 ∧
        (process_timesheet_file tc pm fetch doc).2.1.countP
          isCreateEvent = 0) := by
  refine ⟨fun tc pm fetch doc => runLines_noCreateTask pm fetch doc initState,
    ?_⟩
  intro tc pm fetch doc hdoc
  exact ⟨runLines_noCreateTask pm fetch doc initState,
    runLines_taskNone pm fetch doc initState rfl hdoc⟩

/-- Witness for `c1_at_most_one_task_creation_amended` on the concrete
two-level document. -/
theorem c1_at_most_one_task_creation_amended_witness :
    (process_timesheet_file [] exProjectMap exFetch exDocTwoLevel).2.1.countP
        isCreateTask = 0 ∧
    (process_timesheet_file [] exProjectMap exFetch exDocTwoLevel).2.1.countP
        isCreateEvent = 0 :=
  c1_at_most_one_task_creation_amended.2 [] exProjectMap exFetch
    exDocTwoLevel (by decide)

/-! ## Claim C2 -/

/-- C2 counterexample: a document with a valid date header, the block
marker, a project line and a matching time-range line but no task line
produces no event at all (and no error): the two-level variant does not
emit a `WorkEntry`, contrary to the claim. -/
theorem c2_counterexample_two_level_no_event :
    (process_timesheet_file [] exProjectMap exFetch
        exDocTwoLevelOne).2.1.countP isCreateEvent = 0 ∧
    (process_timesheet_file [] exProjectMap exFetch exDocTwoLevelOne).2.2 =
      none := by
  refine ⟨by decide, by decide⟩

/-- C2 amended: emission of a work entry (an event-creation call)
requires a valid current date, the open block, a non-empty current
project, a non-empty current TASK, and a successfully matched
time-range line at indentation ≥ 16 — the current task is required even
when the document is two-level.  The three-level fixture shows emission
does occur when all the conditions hold. -/
theorem c2_workentry_emission_requirements_amended :
    (∀ pm fetch (s : PState) raw p,
      processLine pm fetch s raw = .ok p →
      p.2.countP isCreateEvent ≠ 0 →
      s.in_block = true ∧ s.current_date ≠ none ∧
        s.current_project.getD [] ≠ [] ∧ s.current_task.getD [] ≠ [] ∧
        16 ≤ indentOf raw ∧
        ∃ st et desc, parse_time_range (pyStrip raw) = some (st, et, desc)) ∧
    (process_timesheet_file [] exProjectMap exFetch
      exDocThreeLevel).2.1.countP isCreateEvent = 1 := by
  refine ⟨?_, by decide⟩
  intro pm fetch s raw p h hcnt
  have hex : ∃ a ∈ p.2, isCreateEvent a = true := by
    by_contra hc
    push_neg at hc
    exact hcnt (List.countP_eq_zero.mpr hc)
  obtain ⟨a, hmem, hae⟩ := hex
  cases a with
  | fetchTasks pid => simp [isCreateEvent] at hae
  | createTask n pid => simp [isCreateEvent] at hae
  | createEvent i j tid nts =>
    exact processLine_event _ _ _ _ _ _ _ _ _ h hmem

/-- Witness for `c2_workentry_emission_requirements_amended`: the
necessity clause applied to a concrete state and line that do emit an
event. -/
theorem c2_workentry_emission_requirements_amended_witness :
    exState.in_block = true ∧ exState.current_date ≠ none ∧
      exState.current_project.getD [] ≠ [] ∧
      exState.current_task.getD [] ≠ [] ∧
      16 ≤ indentOf exTimeLine ∧
      ∃ st et desc,
        parse_time_range (pyStrip exTimeLine) = some (st, et, desc) :=
  c2_workentry_emission_requirements_amended.1 exProjectMap exFetch exState
    exTimeLine
    (exState, [Action.createEvent ⟨2025, 1, 29, 9, 0⟩ ⟨2025, 1, 29, 12, 0⟩
      41 exNotes])
    (by decide) (by decide)

/-! ## Claim C3 -/

/-- C3: task matching walks the remote list in order and returns the
first candidate satisfying the three-clause case-insensitive substring
test (task-line text in candidate name, or candidate name in task-line
text, or description in candidate name): no match is returned iff no
candidate satisfies any clause; a returned match is the first
satisfying candidate in list order (hence deterministic, the matcher
being a pure function of its inputs); and when no candidate satisfies
any clause the time-entry handler skips the entry — no event and no
task creation. -/
theorem c3_task_matching_first_in_order :
    (∀ (tasks : List TaskRec) (ct desc : PyStr),
      matchTask ct desc tasks = none ↔
        ∀ t ∈ tasks, clauseMatch ct desc t = false) ∧
    (∀ (tasks : List TaskRec) (ct desc : PyStr) (tid : Nat),
      matchTask ct desc tasks = some tid →
      ∃ l1 t l2, tasks = l1 ++ t :: l2 ∧ clauseMatch ct desc t = true ∧
        tid = t.id ∧ ∀ u ∈ l1, clauseMatch ct desc u = false) ∧
    (∀ pm (s : PState) cd stripped st et desc pid tasks,
      parse_time_range stripped = some (st, et, desc) → st ≠ [] →
      (float_time_to_hm st).1 < 24 → (float_time_to_hm st).2 < 60 →
      (float_time_to_hm et).1 < 24 → (float_time_to_hm et).2 < 60 →
      dictGet pm (pyLower (s.current_project.getD [])) = some pid →
      pid ≠ 0 →
      cacheGet s.project_tasks_cache pid = some tasks →
      matchTask (s.current_task.getD []) desc tasks = none →
      handleTimeLine pm s cd stripped = .ok (s, [])) := by
  refine ⟨?_, ?_, ?_⟩
  · intro tasks ct desc
    induction tasks with
    | nil => simp [matchTask]
    | cons t ts ih =>
      by_cases hc : clauseMatch ct desc t = true
      · simp [matchTask, hc]
      · rw [Bool.not_eq_true] at hc
        simp [matchTask, hc, ih]
  · intro tasks ct desc
    induction tasks with
    | nil => intro tid h; simp [matchTask] at h
    | cons t ts ih =>
      intro tid h
      by_cases hc : clauseMatch ct desc t = true
      · refine ⟨[], t, ts, rfl, hc, ?_, by simp⟩
        simp [matchTask, hc] at h
        exact h.symm
      · rw [Bool.not_eq_true] at hc
        simp only [matchTask, hc, Bool.false_eq_true, if_false] at h
        obtain ⟨l1, u, l2, heq, hcl, hid, hall⟩ := ih tid h
        refine ⟨t :: l1, u, l2, by simp [heq], hcl, hid, ?_⟩
        intro v hv
        rcases List.mem_cons.mp hv with rfl | hv
        · exact hc
        · exact hall v hv
  · intro pm s cd stripped st et desc pid tasks hp hst hsh hsm heh hem
      hdg hz hcg hmn
    refine handleTimeLine_skip pm s cd stripped st et desc hp hst hsh hsm
      heh hem (Or.inr ?_)
    intro pid' hpid' _
    rw [hdg] at hpid'
    cases hpid'
    exact Or.inr ⟨tasks, hcg, hmn⟩

/-- Witness for `c3_task_matching_first_in_order`: the first-match
clause at a two-element list matching in second position, and the skip
clause at a concrete state whose cached tasks match nothing. -/
theorem c3_task_matching_first_in_order_witness :
    (∃ l1 t l2, exTasks = l1 ++ t :: l2 ∧
      clauseMatch "beta".data "x".data t = true ∧ 9 = t.id ∧
      ∀ u ∈ l1, clauseMatch "beta".data "x".data u = false) ∧
    handleTimeLine exProjectMap exStateNoMatch ⟨2025, 1, 29⟩ exTimeEntry =
      .ok (exStateNoMatch, []) := by
  constructor
  · exact c3_task_matching_first_in_order.2.1 exTasks "beta".data "x".data 9
      (by decide)
  · exact c3_task_matching_first_in_order.2.2 exProjectMap exStateNoMatch
      ⟨2025, 1, 29⟩ exTimeEntry "9.00".data "10.00".data "Work".data 7
      [⟨3, "Unrelated".data, 7⟩]
      (by decide) (by decide) (by decide) (by decide) (by decide) (by decide)
      (by decide) (by decide) (by decide) (by decide)

/-! ## Claim C4 -/

/-- C4 counterexample: a 3-token date-header line whose token encodes
day 32 does not degrade to a no-op — `parse_date` raises `ValueError`
and the exception is uncaught, aborting the run. -/
theorem c4_counterexample_bad_date_aborts :
    (process_timesheet_file [] exProjectMap exFetch exDocBadDate).2.2 =
      some PyError.valueError := by decide

/-- C4 amended: a malformed (regex-failing) time-range line degrades to
a no-op, and a date-header line with the wrong token count degrades to
clearing the date; but a 3-token date-header line whose token has the
wrong length or invalid calendar digits raises an uncaught `ValueError`
that propagates out of the line processor, aborting the run. -/
theorem c4_line_error_policy_amended :
    (∀ pm (s : PState) cd stripped,
      parse_time_range stripped = none →
      handleTimeLine pm s cd stripped = .ok (s, [])) ∧
    (∀ pm fetch (s : PState) raw,
      startsWithList "# date".data (pyStrip raw) = true →
      (pySplit (pyStrip raw)).length ≠ 3 →
      processLine pm fetch s raw =
        .ok (⟨none, false, none, none, s.project_tasks_cache⟩, [])) ∧
    (∀ pm fetch (s : PState) raw e,
      startsWithList "# date".data (pyStrip raw) = true →
      (pySplit (pyStrip raw)).length = 3 →
      parse_date ((pySplit (pyStrip raw)).getD 2 []) = .error e →
      processLine pm fetch s raw = .error e) :=
  ⟨handleTimeLine_parseNone, processLine_badHeader, processLine_badDateToken⟩

/-- Witness for `c4_line_error_policy_amended`: a stray prose line is a
no-op, a two-token header clears the date, and the day-32 header
raises. -/
theorem c4_line_error_policy_amended_witness :
    handleTimeLine exProjectMap exState ⟨2025, 1, 29⟩
        "stray prose line".data = .ok (exState, []) ∧
    processLine exProjectMap exFetch initState "# date".data =
      .ok (⟨none, false, none, none, []⟩, []) ∧
    processLine exProjectMap exFetch initState "# date 320125".data =
      .error .valueError := by
  refine ⟨c4_line_error_policy_amended.1 exProjectMap exState ⟨2025, 1, 29⟩ _
      (by decide),
    c4_line_error_policy_amended.2.1 exProjectMap exFetch initState _
      (by decide) (by decide),
    c4_line_error_policy_amended.2.2 exProjectMap exFetch initState _
      .valueError (by decide) (by decide) (by decide)⟩

/-! ## Claim C5 -/

/-- C5 counterexample: a time-range entry with start hour 25 under a
project with no directory match does not skip quietly — the hour is
converted before project resolution and `build_iso_datetime` raises an
uncaught `ValueError`, aborting the run with no gateway calls. -/
theorem c5_counterexample_hour_overflow_raises :
    (process_timesheet_file [] [] (fun _ => []) exDocHourOverflow).2.2 =
      some PyError.valueError ∧
    (process_timesheet_file [] [] (fun _ => []) exDocHourOverflow).2.1 =
      [] := by
  refine ⟨by decide, by decide⟩

/-- C5 amended: provided the entry's decimal-hour tokens convert to
valid hours and minutes (as `build_iso_datetime` requires — hours of 24
or more raise before resolution), an entry whose project has no
case-insensitive directory match, or whose project tasks are not cached,
or whose task matches no cached remote task, is skipped with no gateway
call and no exception, and the driver continues. -/
theorem c5_unresolved_skip_amended :
    ∀ pm (s : PState) cd stripped st et desc,
      parse_time_range stripped = some (st, et, desc) → st ≠ [] →
      (float_time_to_hm st).1 < 24 → (float_time_to_hm st).2 < 60 →
      (float_time_to_hm et).1 < 24 → (float_time_to_hm et).2 < 60 →
      (dictGet pm (pyLower (s.current_project.getD [])) = none →
        handleTimeLine pm s cd stripped = .ok (s, [])) ∧
      (∀ pid, dictGet pm (pyLower (s.current_project.getD [])) = some pid →
        pid ≠ 0 → cacheGet s.project_tasks_cache pid = none →
        handleTimeLine pm s cd stripped = .ok (s, [])) ∧
      (∀ pid tasks,
        dictGet pm (pyLower (s.current_project.getD [])) = some pid →
        pid ≠ 0 → cacheGet s.project_tasks_cache pid = some tasks →
        matchTask (s.current_task.getD []) desc tasks = none →
        handleTimeLine pm s cd stripped = .ok (s, [])) := by
  intro pm s cd stripped st et desc hp hst hsh hsm heh hem
  refine ⟨?_, ?_, ?_⟩
  · intro hdg
    exact handleTimeLine_skip pm s cd stripped st et desc hp hst hsh hsm
      heh hem (Or.inl hdg)
  · intro pid hdg hz hcn
    refine handleTimeLine_skip pm s cd stripped st et desc hp hst hsh hsm
      heh hem (Or.inr ?_)
    intro pid' hpid' _
    rw [hdg] at hpid'
    cases hpid'
    exact Or.inl hcn
  · intro pid tasks hdg hz hcs hmn
    refine handleTimeLine_skip pm s cd stripped st et desc hp hst hsh hsm
      heh hem (Or.inr ?_)
    intro pid' hpid' _
    rw [hdg] at hpid'
    cases hpid'
    exact Or.inr ⟨tasks, hcs, hmn⟩

/-- Witness for `c5_unresolved_skip_amended`: an entry under the
unknown project `Ghost` is skipped with no calls and no error. -/
theorem c5_unresolved_skip_amended_witness :
    handleTimeLine [] exStateGhost ⟨2025, 1, 29⟩ exTimeEntry =
      .ok (exStateGhost, []) :=
  (c5_unresolved_skip_amended [] exStateGhost ⟨2025, 1, 29⟩ exTimeEntry
    "9.00".data "10.00".data "Work".data (by decide) (by decide) (by decide)
    (by decide) (by decide) (by decide)).1 (by decide)

/-! ## Claim C8 -/

/-- C8: a line starting with the date-header marker but not consisting
of exactly the marker plus one token (3 whitespace-split tokens in all)
sets the current date to unknown and clears the context; and from a
state with no current date, a run over lines none of which is a
date-header line performs no gateway call at all — in particular no
work entry is emitted — until a valid date header is next processed. -/
theorem c8_malformed_header_suppresses_emission :
    (∀ pm fetch (s : PState) raw,
      startsWithList "# date".data (pyStrip raw) = true →
      (pySplit (pyStrip raw)).length ≠ 3 →
      processLine pm fetch s raw =
        .ok (⟨none, false, none, none, s.project_tasks_cache⟩, [])) ∧
    (∀ pm fetch (ls : List PyStr) (s : PState),
      s.current_date = none →
      (∀ l ∈ ls, startsWithList "# date".data (pyStrip l) = false) →
      (runLines pm fetch s ls).2.1 = []) :=
  ⟨processLine_badHeader,
   fun pm fetch ls s hd hall => runLines_dateNone pm fetch ls s hd hall⟩

/-- Witness for `c8_malformed_header_suppresses_emission`: the
four-token header clears the date, and the document's remaining lines
(block marker, project, task, time range) produce no calls from the
cleared state. -/
theorem c8_malformed_header_suppresses_emission_witness :
    processLine exProjectMap exFetch initState
        "# date 290125 extra".data =
      .ok (⟨none, false, none, none, []⟩, []) ∧
    (runLines exProjectMap exFetch ⟨none, false, none, none, []⟩
      (exDocBadHeader.drop 1)).2.1 = [] := by
  refine ⟨c8_malformed_header_suppresses_emission.1 exProjectMap exFetch
      initState _ (by decide) (by decide),
    c8_malformed_header_suppresses_emission.2 exProjectMap exFetch
      (exDocBadHeader.drop 1) ⟨none, false, none, none, []⟩ rfl (by decide)⟩

/-! ## Claim C9 -/

/-- C9: the paginated task fetch consumes the page responses in page
order 0, 1, 2, ... and stops exactly at the first fetch error, empty
page, or page shorter than the requested page size; it returns, in
page-then-list order, exactly the records of the consumed pages whose
project identifier equals the requested one. -/
theorem c9_paginated_fetch_spec (project_id page_size : Nat) :
    ∀ resps : List PageResp,
      get_project_tasks project_id page_size resps =
        (leadPages page_size resps).flatten.filter
          (fun t => t.project_id == project_id) := by
  intro resps
  induction resps with
  | nil => simp [get_project_tasks, leadPages]
  | cons h t ih =>
    cases h with
    | fetchError => simp [get_project_tasks, leadPages]
    | page tasks =>
      by_cases he : tasks = []
      · simp [get_project_tasks, leadPages, he]
      · by_cases hs : tasks.length < page_size
        · simp [get_project_tasks, leadPages, he, hs]
        · simp [get_project_tasks, leadPages, he, hs, ih, List.filter_append]

/-! ## Claim C10 -/

/-- C10: the reconciliation driver's result does not depend on the
module-level `task_cache` it has in scope (it never reads or writes
it); its trace contains no `post_create_task` call on any document, so
event creation is the only write it can perform; and remote task
fetches occur at most once per resolved project id per run, triggered
at the first project line naming that project.  The last point is the
conjunction of four facts: (iv) a fetch of `pid` happens only at a
project line (in the open block with a date, indentation in [8, 12))
whose stripped text resolves to `pid` in the directory while `pid` is
not yet cached, and it caches `pid` on the spot; (v) such a project
line always performs the fetch; (vi) a cached id stays cached across
every line, so no project line after the first fetch of `pid` can
satisfy the not-yet-cached condition in (iv) — the fetch sits at the
first project line resolving `pid`; (vii) on the concrete three-level
document the fetch for project 7 does occur, exactly once. -/
theorem c10_driver_no_task_creation_no_cache :
    (∀ tc1 tc2 pm fetch doc,
      process_timesheet_file tc1 pm fetch doc =
        process_timesheet_file tc2 pm fetch doc) ∧
    (∀ tc pm fetch doc,
      (process_timesheet_file tc pm fetch doc).2.1.countP isCreateTask = 0) ∧
    (∀ tc pm fetch doc pid,
      (process_timesheet_file tc pm fetch doc).2.1.countP
        (isFetch pid) ≤ 1) ∧
    (∀ pm fetch (s : PState) raw p pid,
      processLine pm fetch s raw = .ok p →
      Action.fetchTasks pid ∈ p.2 →
      s.in_block = true ∧ s.current_date ≠ none ∧
        8 ≤ indentOf raw ∧ indentOf raw < 12 ∧
        dictGet pm (pyLower (pyStrip raw)) = some pid ∧ pid ≠ 0 ∧
        cacheGet s.project_tasks_cache pid = none ∧
        cacheGet p.1.project_tasks_cache pid = some (fetch pid)) ∧
    (∀ pm fetch (s : PState) raw cd pid,
      s.in_block = true → s.current_date = some cd →
      pyStrip raw ≠ [] →
      startsWithList "# date".data (pyStrip raw) = false →
      pyLower (pyStrip raw) ≠ "timesheet".data →
      8 ≤ indentOf raw ∧ indentOf raw < 12 →
      dictGet pm (pyLower (pyStrip raw)) = some pid → pid ≠ 0 →
      cacheGet s.project_tasks_cache pid = none →
      processLine pm fetch s raw =
        .ok (⟨some cd, true, some (pyStrip raw), none,
              s.project_tasks_cache ++ [(pid, fetch pid)]⟩,
             [Action.fetchTasks pid])) ∧
    (∀ pm fetch (s : PState) raw p pid v,
      processLine pm fetch s raw = .ok p →
      cacheGet s.project_tasks_cache pid = some v →
      cacheGet p.1.project_tasks_cache pid = some v) ∧
    (process_timesheet_file [] exProjectMap exFetch
      exDocThreeLevel).2.1.countP (isFetch 7) = 1 := by
  refine ⟨fun _ _ _ _ _ => rfl,
    fun tc pm fetch doc => runLines_noCreateTask pm fetch doc initState,
    ?_,
    fun pm fetch s raw p pid h hmem =>
      processLine_fetch_necessity pm fetch s raw p pid h hmem,
    fun pm fetch s raw cd pid hib hcd hb hnd hnt hind hdg hz hcn =>
      processLine_fetch_trigger pm fetch s raw cd pid hib hcd hb hnd hnt
        hind hdg hz hcn,
    fun pm fetch s raw p pid v h hc =>
      processLine_cacheMono pm fetch s raw p pid v h hc,
    by decide⟩
  intro tc pm fetch doc pid
  have h1 := runLines_fetchPot pm fetch pid doc initState
  have h2 : cachePot pid initState.project_tasks_cache = 1 := by
    simp [cachePot, initState, cacheGet]
  unfold process_timesheet_file
  omega

/-- Witness for `c10_driver_no_task_creation_no_cache` at a concrete
project line: the fetch-localization clause, the trigger clause and
the cache-stability clause applied to the `Centurion` line right after
the block opens, and to a repetition of that line once project 7 is
cached. -/
theorem c10_driver_no_task_creation_no_cache_witness :
    (exStateBlock.in_block = true ∧ exStateBlock.current_date ≠ none ∧
      8 ≤ indentOf exProjectLine ∧ indentOf exProjectLine < 12 ∧
      dictGet exProjectMap (pyLower (pyStrip exProjectLine)) = some 7 ∧
      (7 : Nat) ≠ 0 ∧
      cacheGet exStateBlock.project_tasks_cache 7 = none ∧
      cacheGet [(7, exFetch 7)] 7 = some (exFetch 7)) ∧
    processLine exProjectMap exFetch exStateBlock exProjectLine =
      .ok (⟨some ⟨2025, 1, 29⟩, true, some (pyStrip exProjectLine), none,
            exStateBlock.project_tasks_cache ++ [(7, exFetch 7)]⟩,
           [Action.fetchTasks 7]) ∧
    cacheGet [(7, [⟨41, "Software design work".data, 7⟩])] 7 =
      some [⟨41, "Software design work".data, 7⟩] := by
  refine ⟨c10_driver_no_task_creation_no_cache.2.2.2.1 exProjectMap exFetch
      exStateBlock exProjectLine
      (⟨some ⟨2025, 1, 29⟩, true, some "Centurion".data, none,
        [(7, exFetch 7)]⟩, [Action.fetchTasks 7]) 7
      (by decide) (by decide),
    c10_driver_no_task_creation_no_cache.2.2.2.2.1 exProjectMap exFetch
      exStateBlock exProjectLine ⟨2025, 1, 29⟩ 7 (by decide) (by decide)
      (by decide) (by decide) (by decide) (by decide) (by decide)
      (by decide) (by decide),
    c10_driver_no_task_creation_no_cache.2.2.2.2.2.1 exProjectMap exFetch
      exState "        Centurion".data
      (⟨some ⟨2025, 1, 29⟩, true, some "Centurion".data, none,
        [(7, [⟨41, "Software design work".data, 7⟩])]⟩, ([] : List Action)) 7
      [⟨41, "Software design work".data, 7⟩] (by decide) (by decide)⟩

end Timesheet
